import Mathlib

/-!
Verification of the QA Daily Quiz popup controller (popup.js).

The popup script keeps a pool of quiz questions (`allQuestions`), a set of
category checkboxes, four show/hide UI regions (answer text, reveal button,
next-question button, loading spinner) and two text regions (question text,
answer text).  Network fetches, JSON parsing and the random draws of
Math.random are modelled as explicit oracle parameters; every function below
is a direct shallow embedding of the corresponding function in popup.js.
-/

namespace QAPopup

/-- Model of one quiz question as delivered by the remote endpoint:
a record with a question string and an answer string. -/
structure Question where
  question : String
  answer : String
deriving DecidableEq, Repr

/-- Model of the parsed body of a fetch response: either response.json()
throws (not valid JSON), or it yields a value that is an array of questions
(`parsed (some qs)`) or some non-array JSON value (`parsed none`). -/
inductive FetchBody where
  | parseFail
  | parsed (arr : Option (List Question))
deriving DecidableEq

/-- Model of the outcome of one fetch call for one category: the fetch
promise rejects (network failure), or a response arrives with an ok flag
(response.ok) and a body. -/
inductive FetchResponse where
  | netFail
  | resp (ok : Bool) (body : FetchBody)
deriving DecidableEq

/-- Observable state of the popup: the module-global question pool
allQuestions, the two text regions, and the hidden-class state of the four
UI regions (true means the hidden CSS class is present). -/
structure PopupState where
  allQuestions : List Question
  questionText : String
  answerText : String
  answerHidden : Bool
  showAnswerHidden : Bool
  nextQuestionHidden : Bool
  spinnerHidden : Bool
deriving DecidableEq, Repr

/-- Message shown by fetchQuestion when no category is selected
(popup.js line 55). -/
def selectCategoryMsg : String := "Please select at least one category."

/-- Message shown by displayNextQuestion when the pool is empty
(popup.js line 117). -/
def loginGuidanceMsg : String :=
  "Please make sure you are logged into only one Google account in your browser, as the extension will not work correctly with multiple accounts. "

/-- Embedding of toggleLoading (popup.js lines 103-110): when loading,
show the spinner and clear the question text; otherwise hide the spinner. -/
def toggleLoading (isLoading : Bool) (st : PopupState) : PopupState :=
  if isLoading then
    { st with spinnerHidden := false, questionText := "" }
  else
    { st with spinnerHidden := true }

/-- Embedding of the body of the per-category loop of fetchQuestions
(popup.js lines 76-92): a rejected fetch or a body that fails to parse is
caught and logged; a non-ok status or a non-array payload is logged; only a
successful response whose body is a JSON array appends its elements to the
pool.  In every failure case the pool is returned unchanged and the loop
continues with the next category. -/
def processCategory (pool : List Question) (r : FetchResponse) : List Question :=
  match r with
  | .netFail => pool
  | .resp ok body =>
    if !ok then pool
    else
      match body with
      | .parseFail => pool
      | .parsed none => pool
      | .parsed (some newQuestions) => pool ++ newQuestions

/-- Swap of the elements at positions i and j of a list, the list embedding
of the destructuring swap at popup.js line 141; out-of-bounds indices leave
the list unchanged (in the source both indices are always in bounds). -/
def swapL (l : List α) (i j : Nat) : List α :=
  if hi : i < l.length then
    if hj : j < l.length then
      (l.set i (l.get ⟨j, hj⟩)).set j (l.get ⟨i, hi⟩)
    else l
  else l

/-- Loop of shuffleArray (popup.js lines 139-142): the counter k is the
loop variable i; while it is positive, the element at index k is swapped
with the element at index f k, where f models the draws
Math.floor(Math.random() * (i + 1)), and the loop continues with k - 1. -/
def shuffleGo (f : Nat → Nat) : Nat → List α → List α
  | 0, l => l
  | k + 1, l => shuffleGo f k (swapL l (k + 1) (f (k + 1)))

/-- Embedding of shuffleArray (popup.js lines 138-143): Fisher-Yates,
iterating i from array.length - 1 down to 1. -/
def shuffleArray (f : Nat → Nat) (l : List α) : List α :=
  shuffleGo f (l.length - 1) l

/-- Embedding of displayNextQuestion (popup.js lines 115-132).  The random
index Math.floor(Math.random() * allQuestions.length), which ranges over
[0, length), is modelled by reducing an arbitrary natural draw rnd modulo
the pool length. -/
def displayNextQuestion (rnd : Nat) (st : PopupState) : PopupState :=
  if h : st.allQuestions.length = 0 then
    { st with questionText := loginGuidanceMsg,
              answerHidden := true,
              showAnswerHidden := true,
              nextQuestionHidden := true }
  else
    { st with questionText := (st.allQuestions.get
        ⟨rnd % st.allQuestions.length, Nat.mod_lt _ (Nat.pos_of_ne_zero h)⟩).question,
              answerText := (st.allQuestions.get
        ⟨rnd % st.allQuestions.length, Nat.mod_lt _ (Nat.pos_of_ne_zero h)⟩).answer,
              answerHidden := true,
              showAnswerHidden := false,
              nextQuestionHidden := false }

/-- Embedding of fetchQuestions (popup.js lines 70-97): reset the pool,
show the spinner, hide the reveal and next buttons, process each category
response in order, shuffle the accumulated pool, hide the spinner and
display one question.  The responses list holds the per-category fetch
outcomes in category order; f and rnd are the random draws of the shuffle
and of the displayed index. -/
def fetchQuestions (responses : List FetchResponse) (f : Nat → Nat) (rnd : Nat)
    (st : PopupState) : PopupState :=
  let st1 := toggleLoading true { st with allQuestions := [] }
  let st2 := { st1 with showAnswerHidden := true, nextQuestionHidden := true }
  let pool := responses.foldl processCategory st2.allQuestions
  let st3 := { st2 with allQuestions := shuffleArray f pool }
  let st4 := toggleLoading false st3
  displayNextQuestion rnd st4

/-- Model of one category checkbox: its value attribute and checked state. -/
structure Checkbox where
  value : String
  checked : Bool
deriving DecidableEq

/-- Selected categories as computed at popup.js lines 39-41 and 50-52:
values of the checked checkboxes, in document order. -/
def selectedCategoriesOf (checkboxes : List Checkbox) : List String :=
  (checkboxes.filter (fun cb => cb.checked)).map (fun cb => cb.value)

/-- Embedding of fetchQuestion (popup.js lines 49-64).  The second
component of the result records the categories for which a network request
was issued (one GET per category, in order); oracle gives each category's
fetch outcome.  With an empty selection the guard shows the prompt
message, hides the four regions and returns without any request. -/
def fetchQuestion (checkboxes : List Checkbox) (oracle : String → FetchResponse)
    (f : Nat → Nat) (rnd : Nat) (st : PopupState) : PopupState × List String :=
  let selectedCategories := selectedCategoriesOf checkboxes
  if selectedCategories.length = 0 then
    ({ st with questionText := selectCategoryMsg,
               answerHidden := true,
               showAnswerHidden := true,
               nextQuestionHidden := true,
               spinnerHidden := true }, [])
  else
    (fetchQuestions (selectedCategories.map oracle) f rnd st, selectedCategories)

/-- Embedding of saveCategorySelections (popup.js lines 38-44): the first
component is the array persisted to localStorage under selectedCategories,
the second is the triggered fetchQuestion call. -/
def saveCategorySelections (checkboxes : List Checkbox)
    (oracle : String → FetchResponse) (f : Nat → Nat) (rnd : Nat)
    (st : PopupState) : List String × (PopupState × List String) :=
  (selectedCategoriesOf checkboxes, fetchQuestion checkboxes oracle f rnd st)

/-- Embedding of the show-answer-btn click handler (popup.js lines
146-148): classList.toggle on the answer text's hidden class. -/
def toggleAnswerVisibility (st : PopupState) : PopupState :=
  { st with answerHidden := !st.answerHidden }

/-- Embedding of the next-question-btn click handler (popup.js lines
150-153): hide the answer text, then displayNextQuestion on the existing
pool. -/
def advanceQuestion (rnd : Nat) (st : PopupState) : PopupState :=
  displayNextQuestion rnd { st with answerHidden := true }

/-- Model of a JavaScript value that JSON.parse can return for the stored
selectedCategories item.  Arrays are restricted to arrays of strings, the
only shape this code ever stores; jobj stands for any object value, with
len modelling its length property: some n when that property holds the
number n, none when it is absent.  A non-numeric or fractional length
value behaves exactly like none here, because the code only ever compares
the property strictly against 0. -/
inductive JVal where
  | jnull
  | jbool (b : Bool)
  | jnum (n : Int)
  | jstr (s : String)
  | jarr (elems : List String)
  | jobj (len : Option Int)
deriving DecidableEq

/-- Model of the raw stored string under the selectedCategories key:
either it is not valid JSON, or it denotes a JSON value. -/
inductive StoredRaw where
  | malformed
  | wellFormed (v : JVal)
deriving DecidableEq

/-- Exceptions the script can throw: parseFailureError models the
SyntaxError of JSON.parse on malformed input, missingMethodError models
the TypeError of calling includes on a value that has no callable method
of that name, and nullAccessError models the TypeError of reading a
property of null or undefined. -/
inductive JsException where
  | parseFailureError
  | missingMethodError
  | nullAccessError
deriving DecidableEq

/-- Model of JSON.parse(localStorage.getItem(key)) at popup.js line 23:
a missing item is null, which JSON.parse stringifies to "null" and parses
back to null; a malformed item throws; otherwise the parsed value. -/
def jsonParseStored : Option StoredRaw → Except JsException JVal
  | none => .ok .jnull
  | some .malformed => .error .parseFailureError
  | some (.wellFormed v) => .ok v

/-- JavaScript truthiness of a parsed JSON value. -/
def truthy : JVal → Bool
  | .jnull => false
  | .jbool b => b
  | .jnum n => n != 0
  | .jstr s => !s.isEmpty
  | .jarr _ => true
  | .jobj _ => true

/-- Value of the JavaScript test v.length === 0: true for an empty array,
an empty string, or an object whose length property holds the number 0;
for every other value the length property is undefined or a non-zero
value, so the strict comparison with 0 is false. -/
def lengthIsZero : JVal → Bool
  | .jarr elems => elems.isEmpty
  | .jstr s => s.isEmpty
  | .jobj len => if len = some 0 then true else false
  | _ => false

/-- JavaScript substring test s.includes(v). -/
def strIncludes (s v : String) : Bool :=
  if v.isEmpty then true else (s.splitOn v).length ≥ 2

/-- Model of savedCategories.includes(checkbox.value) at popup.js line 31:
arrays test membership, strings test substring containment, and every
other value throws a TypeError.  For objects this is faithful even when an
includes property exists, because JSON cannot encode a function, so
calling that property throws the same TypeError. -/
def jsIncludes (v : JVal) (x : String) : Except JsException Bool :=
  match v with
  | .jarr elems => .ok (elems.contains x)
  | .jstr s => .ok (strIncludes s x)
  | _ => .error .missingMethodError

/-- Outcome of the storage part of the DOMContentLoaded handler: the
savedCategories value finally applied, the default written back to storage
(when one was written), and the computed checked state of each checkbox. -/
structure InitResult where
  savedCategories : JVal
  persistedDefault : Option (List String)
  checkedStates : List Bool
deriving DecidableEq

/-- Loop of checkboxes.forEach at popup.js lines 30-33, restricted to the
checked-state computation: evaluate includes for each checkbox value in
order, propagating the first thrown exception. -/
def mapIncludes (v : JVal) : List String → Except JsException (List Bool)
  | [] => .ok []
  | x :: xs =>
    match jsIncludes v x with
    | .error e => .error e
    | .ok b =>
      match mapIncludes v xs with
      | .error e => .error e
      | .ok rest => .ok (b :: rest)

/-- Embedding of the storage initialization in the DOMContentLoaded
handler (popup.js lines 23-33): parse the stored item, replace a falsy or
length-zero value by the default array containing Cypress and persist that
default, then compute each checkbox's checked state with includes.  An
exception thrown anywhere in this handler is uncaught. -/
def domContentLoaded (stored : Option StoredRaw) (checkboxValues : List String) :
    Except JsException InitResult :=
  match jsonParseStored stored with
  | .error e => .error e
  | .ok parsed =>
    let useDefault := !truthy parsed || lengthIsZero parsed
    let savedCategories := if useDefault then JVal.jarr ["Cypress"] else parsed
    let persistedDefault := if useDefault then some ["Cypress"] else none
    match mapIncludes savedCategories checkboxValues with
    | .error e => .error e
    | .ok checkedStates => .ok ⟨savedCategories, persistedDefault, checkedStates⟩

/-- Convenience constructor for the outcome of a fully successful category
fetch: an ok response whose body parses to a JSON array of questions. -/
def successResp (qs : List Question) : FetchResponse :=
  .resp true (.parsed (some qs))

/-- Per-category arrays that the fetch loop actually appends: those of the
ok responses whose body is a JSON array, in category order. -/
def successesOf : List FetchResponse → List (List Question)
  | [] => []
  | .resp true (.parsed (some qs)) :: rs => qs :: successesOf rs
  | .netFail :: rs => successesOf rs
  | .resp true (.parsed none) :: rs => successesOf rs
  | .resp true .parseFail :: rs => successesOf rs
  | .resp false _ :: rs => successesOf rs

/-- Characterization, read off the initialization code, of the stored
values for which the DOMContentLoaded handler finishes without throwing:
the item must not be malformed JSON, and the parsed value must be replaced
by the default (falsy or length zero), or support the includes method
(array or string), or there must be no checkbox to test. -/
def initThrowFree (stored : Option StoredRaw) (checkboxValues : List String) : Bool :=
  match stored with
  | none => true
  | some .malformed => false
  | some (.wellFormed v) =>
    !truthy v || lengthIsZero v ||
      (match v with
       | .jarr _ => true
       | .jstr _ => true
       | _ => false) ||
      checkboxValues.isEmpty

/-- Discriminator for initialization outcomes: true exactly when the run
finished without throwing. -/
def initOk : Except JsException InitResult → Bool
  | .ok _ => true
  | .error _ => false

/-- Element-level model of one entry of a fetched JSON array, refining the
record-level pool model for the exception analysis: the code only checks
Array.isArray on the payload (popup.js line 84), so the entries need not
be question records.  A record entry stands for any element whose property
reads succeed (an object, and also a number or string, whose absent
properties read as undefined without throwing), carrying the values that
reading question and answer yields; a nullish entry is null or undefined,
where the read questionData.question at line 127 throws a TypeError. -/
inductive JElem where
  | record (q : Question)
  | nullish
deriving DecidableEq

/-- True for pool entries whose property reads succeed. -/
def isRecordElem : JElem → Bool
  | .record _ => true
  | .nullish => false

/-- Element-level counterpart of FetchBody: response.json() throws, or
yields a non-array value, or an array of arbitrary elements. -/
inductive FetchBodyRaw where
  | parseFail
  | parsed (arr : Option (List JElem))
deriving DecidableEq

/-- Element-level counterpart of FetchResponse. -/
inductive FetchResponseRaw where
  | netFail
  | resp (ok : Bool) (body : FetchBodyRaw)
deriving DecidableEq

/-- Element-level embedding of the per-category loop body (popup.js lines
76-92), identical in structure to processCategory: every failure is caught
or skipped and the pool is unchanged; an ok response whose body is an
array appends all its elements, well-formed or not. -/
def processCategoryRaw (pool : List JElem) (r : FetchResponseRaw) : List JElem :=
  match r with
  | .netFail => pool
  | .resp ok body =>
    if !ok then pool
    else
      match body with
      | .parseFail => pool
      | .parsed none => pool
      | .parsed (some newQuestions) => pool ++ newQuestions

/-- Per-category element lists that the loop actually appends, in order. -/
def successesOfRaw : List FetchResponseRaw → List (List JElem)
  | [] => []
  | .resp true (.parsed (some qs)) :: rs => qs :: successesOfRaw rs
  | .netFail :: rs => successesOfRaw rs
  | .resp true (.parsed none) :: rs => successesOfRaw rs
  | .resp true .parseFail :: rs => successesOfRaw rs
  | .resp false _ :: rs => successesOfRaw rs

/-- Element-level embedding of the display step of displayNextQuestion
(popup.js lines 115-132): an empty pool takes the guidance branch without
touching any element (ok none); otherwise the drawn element's question and
answer properties are read, which on a nullish element throws an uncaught
TypeError at line 127. -/
def displayNextQuestionRaw (rnd : Nat) (pool : List JElem) :
    Except JsException (Option Question) :=
  if h : pool.length = 0 then .ok none
  else
    match pool.get ⟨rnd % pool.length, Nat.mod_lt _ (Nat.pos_of_ne_zero h)⟩ with
    | .record q => .ok (some q)
    | .nullish => .error .nullAccessError

/-- True when the element drawn from a pool is nullish, the exact
condition under which the display step throws. -/
def drawnNullish (rnd : Nat) (pool : List JElem) : Bool :=
  if h : pool.length = 0 then false
  else
    match pool.get ⟨rnd % pool.length, Nat.mod_lt _ (Nat.pos_of_ne_zero h)⟩ with
    | .record _ => false
    | .nullish => true

/-- Element-level embedding of fetchQuestions (popup.js lines 70-97) for
the exception analysis: the per-category loop catches its own failures,
the accumulated pool is shuffled, and the final displayNextQuestion call
at line 96 runs outside every try/catch, so an exception it throws
escapes.  The result carries the shuffled pool and the displayed question
(none on the empty-pool guidance branch). -/
def fetchQuestionsRaw (responses : List FetchResponseRaw) (f : Nat → Nat)
    (rnd : Nat) : Except JsException (List JElem × Option Question) :=
  let pool := shuffleArray f (responses.foldl processCategoryRaw [])
  match displayNextQuestionRaw rnd pool with
  | .error e => .error e
  | .ok disp => .ok (pool, disp)

/-- Discriminator for element-level fetch outcomes: true exactly when the
run finished without throwing. -/
def fetchOkRaw : Except JsException (List JElem × Option Question) → Bool
  | .ok _ => true
  | .error _ => false


/-- Fixed concrete question used by witnesses. -/
def q1 : Question := ⟨"Q1", "A1"⟩

/-- Fixed concrete question used by witnesses. -/
def q2 : Question := ⟨"Q2", "A2"⟩

/-- Fixed concrete popup state used by witnesses. -/
def stA : PopupState := ⟨[], "q", "a", false, false, false, true⟩

/-- Fixed concrete popup state with a one-question pool, used by
witnesses. -/
def stB : PopupState := ⟨[q1], "q", "a", false, false, false, true⟩

/-- Fetch oracle used by witnesses: every request fails at the network
level. -/
def oracleFail : String → FetchResponse := fun _ => .netFail

/-! Helper lemmas. -/

/-- Running the checkbox includes test against an array value never throws
and yields the pointwise membership tests. -/
theorem mapIncludes_jarr (elems vals : List String) :
    mapIncludes (JVal.jarr elems) vals
      = Except.ok (vals.map (fun v => elems.contains v)) := by
  induction vals with
  | nil => rfl
  | cons a t ih => simp [mapIncludes, jsIncludes, ih]

/-- The pool field is untouched by displayNextQuestion. -/
theorem displayNextQuestion_allQuestions (rnd : Nat) (st : PopupState) :
    (displayNextQuestion rnd st).allQuestions = st.allQuestions := by
  unfold displayNextQuestion
  split <;> rfl

/-- Explicit form of displayNextQuestion on a non-empty pool, stated via
the optional lookup at the drawn index. -/
theorem displayNextQuestion_spec (rnd : Nat) (st : PopupState) (q : Question)
    (hq : st.allQuestions[rnd % st.allQuestions.length]? = some q) :
    displayNextQuestion rnd st =
      { st with questionText := q.question,
                answerText := q.answer,
                answerHidden := true,
                showAnswerHidden := false,
                nextQuestionHidden := false } := by
  have h : st.allQuestions.length ≠ 0 := by
    intro h0
    rw [List.length_eq_zero] at h0
    rw [h0] at hq
    simp at hq
  have hget : st.allQuestions.get
      ⟨rnd % st.allQuestions.length, Nat.mod_lt _ (Nat.pos_of_ne_zero h)⟩ = q := by
    have hlt : rnd % st.allQuestions.length < st.allQuestions.length :=
      Nat.mod_lt _ (Nat.pos_of_ne_zero h)
    rw [List.getElem?_eq_getElem hlt] at hq
    simpa [List.get_eq_getElem] using Option.some.inj hq
  unfold displayNextQuestion
  rw [dif_neg h, hget]

/-- Explicit form of displayNextQuestion on an empty pool. -/
theorem displayNextQuestion_nil (rnd : Nat) (st : PopupState)
    (h : st.allQuestions = []) :
    displayNextQuestion rnd st =
      { st with questionText := loginGuidanceMsg,
                answerHidden := true,
                showAnswerHidden := true,
                nextQuestionHidden := true } := by
  simp [displayNextQuestion, h]

/-- The spinner state is untouched by displayNextQuestion. -/
theorem displayNextQuestion_spinner (rnd : Nat) (st : PopupState) :
    (displayNextQuestion rnd st).spinnerHidden = st.spinnerHidden := by
  unfold displayNextQuestion
  split <;> rfl

/-- Moving the element at index m of a list to the front while writing a
new value a into index m is a permutation of pushing a to the front. -/
theorem cons_get_set_perm :
    ∀ (t : List α) (m : Nat) (hm : m < t.length) (a : α),
      (t.get ⟨m, hm⟩ :: t.set m a).Perm (a :: t) := by
  intro t
  induction t with
  | nil => intro m hm a; cases hm
  | cons b s ih =>
    intro m hm a
    cases m with
    | zero => simpa using List.Perm.swap a b s
    | succ k =>
      have h1 := ih k (Nat.lt_of_succ_lt_succ hm) a
      have h2 : (s.get ⟨k, Nat.lt_of_succ_lt_succ hm⟩ :: b :: s.set k a).Perm
          (a :: b :: s) :=
        ((List.Perm.swap b _ _).trans (h1.cons b)).trans (List.Perm.swap a b s)
      simpa using h2

/-- Writing the element at index j into index i and the element at index i
into index j permutes the list. -/
theorem set_set_perm :
    ∀ (l : List α) (i j : Nat) (hi : i < l.length) (hj : j < l.length),
      ((l.set i (l.get ⟨j, hj⟩)).set j (l.get ⟨i, hi⟩)).Perm l := by
  intro l
  induction l with
  | nil => intro i j hi _; cases hi
  | cons a t ih =>
    intro i j hi hj
    cases i with
    | zero =>
      cases j with
      | zero => simp
      | succ k =>
        simpa using cons_get_set_perm t k (Nat.lt_of_succ_lt_succ hj) a
    | succ m =>
      cases j with
      | zero =>
        simpa using cons_get_set_perm t m (Nat.lt_of_succ_lt_succ hi) a
      | succ k =>
        simpa using
          (ih m k (Nat.lt_of_succ_lt_succ hi) (Nat.lt_of_succ_lt_succ hj)).cons a

/-- A swap is a permutation. -/
theorem swapL_perm (l : List α) (i j : Nat) : (swapL l i j).Perm l := by
  unfold swapL
  by_cases hi : i < l.length
  · by_cases hj : j < l.length
    · rw [dif_pos hi, dif_pos hj]
      exact set_set_perm l i j hi hj
    · rw [dif_pos hi, dif_neg hj]
  · rw [dif_neg hi]

/-- The shuffle loop permutes the list. -/
theorem shuffleGo_perm (f : Nat → Nat) :
    ∀ (k : Nat) (l : List α), (shuffleGo f k l).Perm l := by
  intro k
  induction k with
  | zero => intro l; exact List.Perm.refl l
  | succ k ih =>
    intro l
    exact (ih _).trans (swapL_perm l (k + 1) (f (k + 1)))

/-- The shuffle permutes the list. -/
theorem shuffleArray_perm (f : Nat → Nat) (l : List α) :
    (shuffleArray f l).Perm l :=
  shuffleGo_perm f (l.length - 1) l

/-- The fetch loop appends exactly the arrays of the successful
responses, in order, to the accumulated pool. -/
theorem foldl_processCategory (rs : List FetchResponse) (pool : List Question) :
    rs.foldl processCategory pool = pool ++ (successesOf rs).flatten := by
  induction rs generalizing pool with
  | nil => simp [successesOf]
  | cons r rs ih =>
    cases r with
    | netFail => simp [processCategory, successesOf, ih]
    | resp ok body =>
      cases ok with
      | false => simp [processCategory, successesOf, ih]
      | true =>
        cases body with
        | parseFail => simp [processCategory, successesOf, ih]
        | parsed arr =>
          cases arr with
          | none => simp [processCategory, successesOf, ih]
          | some qs => simp [processCategory, successesOf, ih]

/-- Evaluation of the whole fetchQuestions pipeline down to the final
displayNextQuestion call. -/
theorem fetchQuestions_eq (responses : List FetchResponse) (f : Nat → Nat)
    (rnd : Nat) (st : PopupState) :
    fetchQuestions responses f rnd st =
      displayNextQuestion rnd
        { st with
          allQuestions := shuffleArray f ((successesOf responses).flatten),
          questionText := "",
          showAnswerHidden := true,
          nextQuestionHidden := true,
          spinnerHidden := true } := by
  unfold fetchQuestions
  simp [toggleLoading, foldl_processCategory]

/-- The element-level fetch loop appends exactly the arrays of the
successful responses, in order, to the accumulated pool. -/
theorem foldl_processCategoryRaw (rs : List FetchResponseRaw)
    (pool : List JElem) :
    rs.foldl processCategoryRaw pool = pool ++ (successesOfRaw rs).flatten := by
  induction rs generalizing pool with
  | nil => simp [successesOfRaw]
  | cons r rs ih =>
    cases r with
    | netFail => simp [processCategoryRaw, successesOfRaw, ih]
    | resp ok body =>
      cases ok with
      | false => simp [processCategoryRaw, successesOfRaw, ih]
      | true =>
        cases body with
        | parseFail => simp [processCategoryRaw, successesOfRaw, ih]
        | parsed arr =>
          cases arr with
          | none => simp [processCategoryRaw, successesOfRaw, ih]
          | some qs => simp [processCategoryRaw, successesOfRaw, ih]

/-- An element-level fetch run throws exactly when the element drawn from
the shuffled pool of successfully fetched arrays is nullish. -/
theorem fetchQuestionsRaw_ok_eq (responses : List FetchResponseRaw)
    (f : Nat → Nat) (rnd : Nat) :
    fetchOkRaw (fetchQuestionsRaw responses f rnd)
      = !drawnNullish rnd
          (shuffleArray f ((successesOfRaw responses).flatten)) := by
  unfold fetchQuestionsRaw
  rw [foldl_processCategoryRaw]
  simp only [List.nil_append]
  unfold displayNextQuestionRaw drawnNullish
  by_cases h : (shuffleArray f ((successesOfRaw responses).flatten)).length = 0
  · rw [dif_pos h, dif_pos h]
    rfl
  · rw [dif_neg h, dif_neg h]
    cases (shuffleArray f ((successesOfRaw responses).flatten)).get
        ⟨rnd % (shuffleArray f ((successesOfRaw responses).flatten)).length,
          Nat.mod_lt _ (Nat.pos_of_ne_zero h)⟩ with
    | record q => rfl
    | nullish => rfl

/-- A list of all-successful responses has exactly its arrays as
successes. -/
theorem successesOf_map_successResp (qss : List (List Question)) :
    successesOf (qss.map successResp) = qss := by
  induction qss with
  | nil => rfl
  | cons qs t ih => simp [successResp, successesOf, ih]

/-- Running the checkbox includes test against a string value never
throws. -/
theorem mapIncludes_jstr (s : String) (vals : List String) :
    mapIncludes (JVal.jstr s) vals
      = Except.ok (vals.map (fun v => strIncludes s v)) := by
  induction vals with
  | nil => rfl
  | cons a t ih => simp [mapIncludes, jsIncludes, ih]

/-- Running the checkbox includes test against a value with no includes
method throws on the first checkbox. -/
theorem mapIncludes_noMethod (v : JVal)
    (hv : ∀ x, jsIncludes v x = .error .missingMethodError)
    (vals : List String) :
    mapIncludes v vals =
      if vals.isEmpty then .ok [] else .error .missingMethodError := by
  cases vals with
  | nil => rfl
  | cons a t => simp [mapIncludes, hv]

/-- Positions above both swapped indices are untouched by a swap. -/
theorem swapL_getElem?_of_lt (l : List α) (i j m : Nat) (him : i < m)
    (hjm : j < m) : (swapL l i j)[m]? = l[m]? := by
  unfold swapL
  by_cases hi : i < l.length
  · by_cases hj : j < l.length
    · rw [dif_pos hi, dif_pos hj, List.getElem?_set_ne (Nat.ne_of_lt hjm),
        List.getElem?_set_ne (Nat.ne_of_lt him)]
    · rw [dif_pos hi, dif_neg hj]
  · rw [dif_neg hi]

/-- After a swap, position i holds the element previously at position j. -/
theorem swapL_getElem?_left (l : List α) (i j : Nat) (hi : i < l.length)
    (hj : j < l.length) : (swapL l i j)[i]? = l[j]? := by
  unfold swapL
  rw [dif_pos hi, dif_pos hj]
  by_cases hij : j = i
  · subst hij
    rw [List.set_set, List.getElem?_set_self hj, List.getElem?_eq_getElem hj,
      List.get_eq_getElem]
  · rw [List.getElem?_set_ne hij, List.getElem?_set_self hi,
      List.getElem?_eq_getElem hj, List.get_eq_getElem]

/-- Taking a prefix strictly containing both indices commutes with the
swap. -/
theorem take_swapL (l : List α) (i j m : Nat) (him : i < m) (hjm : j < m) :
    (swapL l i j).take m = swapL (l.take m) i j := by
  by_cases hi : i < l.length
  · by_cases hj : j < l.length
    · have hi' : i < (l.take m).length := by
        rw [List.length_take]; exact Nat.lt_min.mpr ⟨him, hi⟩
      have hj' : j < (l.take m).length := by
        rw [List.length_take]; exact Nat.lt_min.mpr ⟨hjm, hj⟩
      unfold swapL
      rw [dif_pos hi, dif_pos hj, dif_pos hi', dif_pos hj',
        List.set_take, List.set_take]
      simp [List.get_eq_getElem]
    · have hj' : ¬ j < (l.take m).length := by
        rw [List.length_take]
        intro hcon
        exact hj (Nat.lt_min.mp hcon).2
      unfold swapL
      rw [dif_pos hi, dif_neg hj]
      by_cases hi' : i < (l.take m).length
      · rw [dif_pos hi', dif_neg hj']
      · rw [dif_neg hi']
  · have hi' : ¬ i < (l.take m).length := by
      rw [List.length_take]
      intro hcon
      exact hi (Nat.lt_min.mp hcon).2
    unfold swapL
    rw [dif_neg hi, dif_neg hi']

/-- Positions above the loop counter are untouched by the shuffle loop. -/
theorem shuffleGo_getElem?_high (f : Nat → Nat) (hf : ∀ i, f i ≤ i) :
    ∀ (k : Nat) (l : List α) (m : Nat), k < m →
      (shuffleGo f k l)[m]? = l[m]? := by
  intro k
  induction k with
  | zero => intro l m _; rfl
  | succ k ih =>
    intro l m hm
    show (shuffleGo f k (swapL l (k + 1) (f (k + 1))))[m]? = l[m]?
    rw [ih _ m (Nat.lt_of_succ_lt hm)]
    exact swapL_getElem?_of_lt l (k + 1) (f (k + 1)) m hm
      (Nat.lt_of_le_of_lt (hf (k + 1)) hm)

/-- The shuffle loop only consults the choice function at the loop
indices 1..k. -/
theorem shuffleGo_congr (f g : Nat → Nat) :
    ∀ (k : Nat), (∀ i, 1 ≤ i → i ≤ k → f i = g i) →
      ∀ (l : List α), shuffleGo f k l = shuffleGo g k l := by
  intro k
  induction k with
  | zero => intro _ l; rfl
  | succ k ih =>
    intro h l
    show shuffleGo f k (swapL l (k + 1) (f (k + 1)))
        = shuffleGo g k (swapL l (k + 1) (g (k + 1)))
    rw [h (k + 1) (Nat.succ_le_succ (Nat.zero_le k)) (Nat.le_refl _)]
    exact ih (fun i h1 hik => h i h1 (Nat.le_succ_of_le hik)) _

/-- On a duplicate-free list the shuffle loop determines the choice
function at every loop index: distinct in-range choices give distinct
results. -/
theorem shuffleGo_inj (f g : Nat → Nat) (hf : ∀ i, f i ≤ i)
    (hg : ∀ i, g i ≤ i) :
    ∀ (k : Nat) (l : List α), l.Nodup → k < l.length →
      shuffleGo f k l = shuffleGo g k l → ∀ i, 1 ≤ i → i ≤ k → f i = g i := by
  intro k
  induction k with
  | zero =>
    intro l _ _ _ i h1 h0
    exact (Nat.not_succ_le_zero 0 (h1.trans h0)).elim
  | succ k ih =>
    intro l hnd hk heq i h1 hik
    have hflen : f (k + 1) < l.length := Nat.lt_of_le_of_lt (hf _) hk
    have hglen : g (k + 1) < l.length := Nat.lt_of_le_of_lt (hg _) hk
    have e1 : (shuffleGo f (k + 1) l)[k + 1]? = l[f (k + 1)]? := by
      show (shuffleGo f k (swapL l (k + 1) (f (k + 1))))[k + 1]? = _
      rw [shuffleGo_getElem?_high f hf k _ (k + 1) (Nat.lt_succ_self k)]
      exact swapL_getElem?_left l (k + 1) (f (k + 1)) hk hflen
    have e2 : (shuffleGo g (k + 1) l)[k + 1]? = l[g (k + 1)]? := by
      show (shuffleGo g k (swapL l (k + 1) (g (k + 1))))[k + 1]? = _
      rw [shuffleGo_getElem?_high g hg k _ (k + 1) (Nat.lt_succ_self k)]
      exact swapL_getElem?_left l (k + 1) (g (k + 1)) hk hglen
    have hsame : l[f (k + 1)]? = l[g (k + 1)]? := by
      rw [← e1, ← e2, heq]
    have hfg : f (k + 1) = g (k + 1) := by
      rw [List.getElem?_eq_getElem hflen, List.getElem?_eq_getElem hglen]
        at hsame
      exact (List.Nodup.getElem_inj_iff hnd).mp (Option.some.inj hsame)
    by_cases hieq : i = k + 1
    · rw [hieq]; exact hfg
    · have heq2 : shuffleGo f k (swapL l (k + 1) (f (k + 1)))
          = shuffleGo g k (swapL l (k + 1) (g (k + 1))) := heq
      rw [← hfg] at heq2
      exact ih (swapL l (k + 1) (f (k + 1)))
        ((swapL_perm l (k + 1) (f (k + 1))).symm.nodup hnd)
        (by rw [(swapL_perm l (k + 1) (f (k + 1))).length_eq]
            exact Nat.lt_of_succ_lt hk)
        heq2 i h1 (by omega)

/-- On a duplicate-free list every rearrangement of the prefix governed by
the loop is reached by some in-range choice function. -/
theorem shuffleGo_surj :
    ∀ (k : Nat) (l l' : List α), l.Nodup → l.length = l'.length →
      k < l.length → (l.take (k + 1)).Perm (l'.take (k + 1)) →
      (∀ m, k < m → l[m]? = l'[m]?) →
      ∃ f : Nat → Nat, (∀ i, f i ≤ i) ∧ shuffleGo f k l = l' := by
  intro k
  induction k with
  | zero =>
    intro l l' _ hlen hk hpre hhigh
    refine ⟨fun _ => 0, fun i => Nat.zero_le i, ?_⟩
    show l = l'
    have h0 : 0 < l.length := hk
    have h0' : 0 < l'.length := hlen ▸ h0
    apply List.ext_getElem?
    intro m
    cases m with
    | zero =>
      have t1 : l.take 1 = [l.get ⟨0, h0⟩] := by
        rw [List.take_succ, List.getElem?_eq_getElem h0, List.get_eq_getElem]
        rfl
      have t2 : l'.take 1 = [l'.get ⟨0, h0'⟩] := by
        rw [List.take_succ, List.getElem?_eq_getElem h0', List.get_eq_getElem]
        rfl
      rw [t1, t2] at hpre
      have he := List.singleton_perm_singleton.mp hpre
      simp only [List.get_eq_getElem] at he
      rw [List.getElem?_eq_getElem h0, List.getElem?_eq_getElem h0', he]
    | succ m => exact hhigh (m + 1) (Nat.succ_pos m)
  | succ k ih =>
    intro l l' hnd hlen hk hpre hhigh
    have hk1' : k + 1 < l'.length := hlen ▸ hk
    have hy' : l'[k + 1]? = some (l'.get ⟨k + 1, hk1'⟩) := by
      rw [List.getElem?_eq_getElem hk1', List.get_eq_getElem]
    have hytake' : l'.get ⟨k + 1, hk1'⟩ ∈ l'.take (k + 2) := by
      apply List.getElem?_mem (n := k + 1)
      rw [List.getElem?_take_of_lt (Nat.lt_succ_self (k + 1))]
      exact hy'
    have hytake : l'.get ⟨k + 1, hk1'⟩ ∈ l.take (k + 2) :=
      hpre.mem_iff.mpr hytake'
    obtain ⟨j, hjlen, hjy⟩ := List.getElem_of_mem hytake
    have hjk : j < k + 2 := Nat.lt_of_lt_of_le hjlen (List.length_take_le _ _)
    have hjl : j < l.length :=
      Nat.lt_of_lt_of_le hjlen (List.length_take_le' _ _)
    have hjy' : l[j]? = some (l'.get ⟨k + 1, hk1'⟩) := by
      rw [List.getElem?_eq_getElem hjl]
      rw [List.getElem_take] at hjy
      rw [hjy]
    have hswlen : (swapL l (k + 1) j).length = l.length :=
      (swapL_perm l (k + 1) j).length_eq
    have hswnd : (swapL l (k + 1) j).Nodup :=
      (swapL_perm l (k + 1) j).symm.nodup hnd
    have hswtop : (swapL l (k + 1) j)[k + 1]? = some (l'.get ⟨k + 1, hk1'⟩) := by
      rw [swapL_getElem?_left l (k + 1) j hk hjl]
      exact hjy'
    have hswhigh : ∀ m, k < m → (swapL l (k + 1) j)[m]? = l'[m]? := by
      intro m hm
      by_cases hmk : m = k + 1
      · rw [hmk, hswtop, hy']
      · have hgt : k + 1 < m := by omega
        rw [swapL_getElem?_of_lt l (k + 1) j m hgt (by omega)]
        exact hhigh m hgt
    have hswpre : ((swapL l (k + 1) j).take (k + 1)).Perm
        (l'.take (k + 1)) := by
      have e1 : (swapL l (k + 1) j).take (k + 2)
          = swapL (l.take (k + 2)) (k + 1) j :=
        take_swapL l (k + 1) j (k + 2) (Nat.lt_succ_self _) hjk
      have p1 : ((swapL l (k + 1) j).take (k + 2)).Perm (l'.take (k + 2)) := by
        rw [e1]
        exact (swapL_perm (l.take (k + 2)) (k + 1) j).trans hpre
      have e2 : (swapL l (k + 1) j).take (k + 2)
          = (swapL l (k + 1) j).take (k + 1) ++ [l'.get ⟨k + 1, hk1'⟩] := by
        rw [List.take_succ, hswtop]
        rfl
      have e3 : l'.take (k + 2)
          = l'.take (k + 1) ++ [l'.get ⟨k + 1, hk1'⟩] := by
        rw [List.take_succ, hy']
        rfl
      rw [e2, e3] at p1
      exact (List.perm_append_right_iff _).mp p1
    obtain ⟨f0, hf0b, hf0eq⟩ := ih (swapL l (k + 1) j) l' hswnd
      (hswlen.trans hlen) (by rw [hswlen]; exact Nat.lt_of_succ_lt hk)
      hswpre hswhigh
    refine ⟨fun i => if i = k + 1 then j else f0 i, ?_, ?_⟩
    · intro i
      show (if i = k + 1 then j else f0 i) ≤ i
      by_cases hi : i = k + 1
      · rw [if_pos hi, hi]; omega
      · rw [if_neg hi]; exact hf0b i
    · show shuffleGo (fun i => if i = k + 1 then j else f0 i) k
          (swapL l (k + 1) (if k + 1 = k + 1 then j else f0 (k + 1))) = l'
      rw [if_pos rfl]
      rw [shuffleGo_congr (fun i => if i = k + 1 then j else f0 i) f0 k
        (fun i h1 hik => by
          show (if i = k + 1 then j else f0 i) = f0 i
          exact if_neg (by omega))]
      exact hf0eq

/-! Claim theorems. -/

/-- C3: if the stored value under selectedCategories is absent or an empty
array, initialization applies exactly the selection containing only
Cypress and writes exactly that default back to storage, without
throwing. -/
theorem default_selection_is_cypress (stored : Option StoredRaw)
    (vals : List String)
    (h : stored = none ∨ stored = some (.wellFormed (.jarr []))) :
    domContentLoaded stored vals =
      Except.ok ⟨JVal.jarr ["Cypress"], some ["Cypress"],
        vals.map (fun v => List.contains ["Cypress"] v)⟩ := by
  rcases h with rfl | rfl <;>
    simp [domContentLoaded, jsonParseStored, truthy, lengthIsZero,
      mapIncludes_jarr]

/-- Witness for C3 at a concrete input: stored value absent, one checkbox
value. -/
theorem default_selection_is_cypress_witness :
    ((none : Option StoredRaw) = none ∨
      (none : Option StoredRaw) = some (.wellFormed (.jarr []))) ∧
    domContentLoaded none ["Cypress"] =
      Except.ok ⟨JVal.jarr ["Cypress"], some ["Cypress"],
        ["Cypress"].map (fun v => List.contains ["Cypress"] v)⟩ :=
  ⟨Or.inl rfl, default_selection_is_cypress none ["Cypress"] (Or.inl rfl)⟩

/-- C4: with an empty selection, the fetch entry point shows the prompt
message, hides the answer text, the reveal and next buttons and the
spinner, and issues no network request. -/
theorem empty_selection_guard (checkboxes : List Checkbox)
    (oracle : String → FetchResponse) (f : Nat → Nat) (rnd : Nat)
    (st : PopupState) (h : selectedCategoriesOf checkboxes = []) :
    fetchQuestion checkboxes oracle f rnd st =
      ({ st with questionText := selectCategoryMsg,
                 answerHidden := true,
                 showAnswerHidden := true,
                 nextQuestionHidden := true,
                 spinnerHidden := true }, []) := by
  simp [fetchQuestion, h]

/-- Witness for C4 at a concrete input: one unchecked checkbox. -/
theorem empty_selection_guard_witness :
    selectedCategoriesOf [⟨"Cypress", false⟩] = [] ∧
    fetchQuestion [⟨"Cypress", false⟩] oracleFail id 0 stA =
      ({ stA with questionText := selectCategoryMsg,
                  answerHidden := true,
                  showAnswerHidden := true,
                  nextQuestionHidden := true,
                  spinnerHidden := true }, []) :=
  ⟨rfl, empty_selection_guard [⟨"Cypress", false⟩] oracleFail id 0 stA rfl⟩

/-- C6: displayNextQuestion on an empty pool sets the question text to the
fixed single-account guidance message and hides the answer text, the
reveal button and the next-question button. -/
theorem empty_pool_guidance (rnd : Nat) (st : PopupState)
    (h : st.allQuestions = []) :
    displayNextQuestion rnd st =
      { st with questionText := loginGuidanceMsg,
                answerHidden := true,
                showAnswerHidden := true,
                nextQuestionHidden := true } := by
  simp [displayNextQuestion, h]

/-- Witness for C6 at a concrete input: the empty-pool state. -/
theorem empty_pool_guidance_witness :
    stA.allQuestions = [] ∧
    displayNextQuestion 0 stA =
      { stA with questionText := loginGuidanceMsg,
                 answerHidden := true,
                 showAnswerHidden := true,
                 nextQuestionHidden := true } :=
  ⟨rfl, empty_pool_guidance 0 stA rfl⟩

/-- C7: neither displayNextQuestion nor advanceQuestion mutates the pool;
advanceQuestion hides the answer text and redraws from the same pool with
no fetch, so with the same random draw two consecutive advances display
the same question. -/
theorem pool_never_mutated (st : PopupState) (rnd : Nat)
    (h : st.allQuestions ≠ []) :
    (displayNextQuestion rnd st).allQuestions = st.allQuestions ∧
    (advanceQuestion rnd st).allQuestions = st.allQuestions ∧
    (advanceQuestion rnd st).answerHidden = true ∧
    (advanceQuestion rnd (advanceQuestion rnd st)).questionText =
      (advanceQuestion rnd st).questionText := by
  have hlen : st.allQuestions.length ≠ 0 := by
    simpa [List.length_eq_zero] using h
  have hlt : rnd % st.allQuestions.length < st.allQuestions.length :=
    Nat.mod_lt _ (Nat.pos_of_ne_zero hlen)
  obtain ⟨q, hq⟩ : ∃ q, st.allQuestions[rnd % st.allQuestions.length]? = some q :=
    ⟨_, List.getElem?_eq_getElem hlt⟩
  have e1 : advanceQuestion rnd st =
      { st with questionText := q.question,
                answerText := q.answer,
                answerHidden := true,
                showAnswerHidden := false,
                nextQuestionHidden := false } :=
    displayNextQuestion_spec rnd { st with answerHidden := true } q hq
  refine ⟨displayNextQuestion_allQuestions rnd st, ?_, ?_, ?_⟩
  · rw [e1]
  · rw [e1]
  · have e2 : advanceQuestion rnd (advanceQuestion rnd st) =
        { advanceQuestion rnd st with
          questionText := q.question,
          answerText := q.answer,
          answerHidden := true,
          showAnswerHidden := false,
          nextQuestionHidden := false } := by
      refine displayNextQuestion_spec rnd _ q ?_
      rw [e1]
      exact hq
    rw [e2, e1]

/-- Witness for C7 at a concrete input: a one-question pool. -/
theorem pool_never_mutated_witness :
    stB.allQuestions ≠ [] ∧
    ((displayNextQuestion 0 stB).allQuestions = stB.allQuestions ∧
     (advanceQuestion 0 stB).allQuestions = stB.allQuestions ∧
     (advanceQuestion 0 stB).answerHidden = true ∧
     (advanceQuestion 0 (advanceQuestion 0 stB)).questionText =
       (advanceQuestion 0 stB).questionText) :=
  ⟨by decide, pool_never_mutated stB 0 (by decide)⟩

/-- C2: per-category failures of every kind are skipped without halting
the run: the final pool is a permutation of exactly the concatenation of
the successfully fetched arrays, after the loop the pool is shuffled and
the loading indicator is hidden, and one question is displayed (the fixed
guidance message when nothing was collected, otherwise a question from the
collected arrays). -/
theorem failed_categories_skipped (responses : List FetchResponse)
    (f : Nat → Nat) (rnd : Nat) (st : PopupState) :
    (fetchQuestions responses f rnd st).allQuestions.Perm
        (successesOf responses).flatten ∧
    (fetchQuestions responses f rnd st).spinnerHidden = true ∧
    ((successesOf responses).flatten = [] →
      (fetchQuestions responses f rnd st).questionText = loginGuidanceMsg) ∧
    ((successesOf responses).flatten ≠ [] →
      ∃ q ∈ (successesOf responses).flatten,
        (fetchQuestions responses f rnd st).questionText = q.question ∧
        (fetchQuestions responses f rnd st).answerText = q.answer) := by
  have hAll : (fetchQuestions responses f rnd st).allQuestions
      = shuffleArray f ((successesOf responses).flatten) := by
    rw [fetchQuestions_eq, displayNextQuestion_allQuestions]
  have hperm : (fetchQuestions responses f rnd st).allQuestions.Perm
      (successesOf responses).flatten := by
    rw [hAll]; exact shuffleArray_perm f _
  refine ⟨hperm, ?_, ?_, ?_⟩
  · rw [fetchQuestions_eq, displayNextQuestion_spinner]
  · intro hflat
    rw [fetchQuestions_eq, displayNextQuestion_nil rnd _ (by
      simp [hflat, shuffleArray, shuffleGo])]
  · intro hflat
    have hlenL : (shuffleArray f ((successesOf responses).flatten)).length ≠ 0 := by
      intro h0
      rw [List.length_eq_zero] at h0
      have hp := shuffleArray_perm f ((successesOf responses).flatten)
      rw [h0] at hp
      exact hflat (List.nil_perm.mp hp)
    have hltL : rnd % (shuffleArray f ((successesOf responses).flatten)).length
        < (shuffleArray f ((successesOf responses).flatten)).length :=
      Nat.mod_lt _ (Nat.pos_of_ne_zero hlenL)
    have hq : (shuffleArray f ((successesOf responses).flatten))[rnd %
        (shuffleArray f ((successesOf responses).flatten)).length]?
        = some ((shuffleArray f ((successesOf responses).flatten)).get
            ⟨rnd % (shuffleArray f ((successesOf responses).flatten)).length,
              hltL⟩) := by
      rw [List.getElem?_eq_getElem hltL, List.get_eq_getElem]
    have hmem : (shuffleArray f ((successesOf responses).flatten)).get
        ⟨rnd % (shuffleArray f ((successesOf responses).flatten)).length, hltL⟩
        ∈ (successesOf responses).flatten :=
      (shuffleArray_perm f _).subset (List.get_mem _ _ _)
    refine ⟨_, hmem, ?_, ?_⟩ <;>
    · rw [fetchQuestions_eq, displayNextQuestion_spec rnd _ _ hq]

/-- C1: with a non-empty category list whose fetches all succeed with
arrays of questions, the resulting pool has exactly as many questions as
were fetched (a permutation of their concatenation, so nothing is
fabricated or dropped), the question displayed by the fetch comes from the
fetched arrays, and so does every question a later displayNextQuestion can
display from that pool. -/
theorem all_success_pool_is_union (qss : List (List Question)) (hne : qss ≠ [])
    (f : Nat → Nat) (rnd : Nat) (st : PopupState) :
    (fetchQuestions (qss.map successResp) f rnd st).allQuestions.length
        = (qss.map List.length).sum ∧
    (fetchQuestions (qss.map successResp) f rnd st).allQuestions.Perm
        qss.flatten ∧
    (qss.flatten ≠ [] → ∃ q ∈ qss.flatten,
      (fetchQuestions (qss.map successResp) f rnd st).questionText
        = q.question) ∧
    (∀ rnd2 : Nat, qss.flatten ≠ [] → ∃ q ∈ qss.flatten,
      (displayNextQuestion rnd2
          (fetchQuestions (qss.map successResp) f rnd st)).questionText
        = q.question ∧
      (displayNextQuestion rnd2
          (fetchQuestions (qss.map successResp) f rnd st)).answerText
        = q.answer) := by
  have hAll : (fetchQuestions (qss.map successResp) f rnd st).allQuestions
      = shuffleArray f qss.flatten := by
    rw [fetchQuestions_eq, displayNextQuestion_allQuestions,
      successesOf_map_successResp]
  have hperm : (fetchQuestions (qss.map successResp) f rnd st).allQuestions.Perm
      qss.flatten := by
    rw [hAll]; exact shuffleArray_perm f _
  have hlenL : qss.flatten ≠ [] → (shuffleArray f qss.flatten).length ≠ 0 := by
    intro hflat h0
    rw [List.length_eq_zero] at h0
    have hp := shuffleArray_perm f qss.flatten
    rw [h0] at hp
    exact hflat (List.nil_perm.mp hp)
  refine ⟨?_, hperm, ?_, ?_⟩
  · rw [hperm.length_eq, List.length_flatten]
  · intro hflat
    have hlt : rnd % (shuffleArray f qss.flatten).length
        < (shuffleArray f qss.flatten).length :=
      Nat.mod_lt _ (Nat.pos_of_ne_zero (hlenL hflat))
    have hq : (shuffleArray f qss.flatten)[rnd %
        (shuffleArray f qss.flatten).length]?
        = some ((shuffleArray f qss.flatten).get
            ⟨rnd % (shuffleArray f qss.flatten).length, hlt⟩) := by
      rw [List.getElem?_eq_getElem hlt, List.get_eq_getElem]
    refine ⟨(shuffleArray f qss.flatten).get
        ⟨rnd % (shuffleArray f qss.flatten).length, hlt⟩,
      (shuffleArray_perm f _).subset (List.get_mem _ _ _), ?_⟩
    rw [fetchQuestions_eq, successesOf_map_successResp,
      displayNextQuestion_spec rnd _ _ hq]
  · intro rnd2 hflat
    have hlen2 : (fetchQuestions (qss.map successResp) f rnd st).allQuestions.length
        ≠ 0 := by
      rw [hAll]; exact hlenL hflat
    have hlt2 : rnd2 % (fetchQuestions (qss.map successResp) f rnd st).allQuestions.length
        < (fetchQuestions (qss.map successResp) f rnd st).allQuestions.length :=
      Nat.mod_lt _ (Nat.pos_of_ne_zero hlen2)
    have hq2 : (fetchQuestions (qss.map successResp) f rnd st).allQuestions[rnd2 %
        (fetchQuestions (qss.map successResp) f rnd st).allQuestions.length]?
        = some ((fetchQuestions (qss.map successResp) f rnd st).allQuestions.get
            ⟨rnd2 % (fetchQuestions (qss.map successResp) f rnd st).allQuestions.length,
              hlt2⟩) := by
      rw [List.getElem?_eq_getElem hlt2, List.get_eq_getElem]
    refine ⟨(fetchQuestions (qss.map successResp) f rnd st).allQuestions.get
        ⟨rnd2 % (fetchQuestions (qss.map successResp) f rnd st).allQuestions.length,
          hlt2⟩,
      hperm.subset (List.get_mem _ _ _), ?_, ?_⟩ <;>
      rw [displayNextQuestion_spec rnd2 _ _ hq2]

/-- Witness for C1 at a concrete input: two categories, one question
each. -/
theorem all_success_pool_is_union_witness :
    ([[q1], [q2]] : List (List Question)) ≠ [] ∧
    ((fetchQuestions ([[q1], [q2]].map successResp) id 0 stA).allQuestions.length
        = ([[q1], [q2]].map List.length).sum ∧
     (fetchQuestions ([[q1], [q2]].map successResp) id 0 stA).allQuestions.Perm
        [[q1], [q2]].flatten ∧
     ([[q1], [q2]].flatten ≠ [] → ∃ q ∈ [[q1], [q2]].flatten,
       (fetchQuestions ([[q1], [q2]].map successResp) id 0 stA).questionText
         = q.question) ∧
     (∀ rnd2 : Nat, [[q1], [q2]].flatten ≠ [] → ∃ q ∈ [[q1], [q2]].flatten,
       (displayNextQuestion rnd2
           (fetchQuestions ([[q1], [q2]].map successResp) id 0 stA)).questionText
         = q.question ∧
       (displayNextQuestion rnd2
           (fetchQuestions ([[q1], [q2]].map successResp) id 0 stA)).answerText
         = q.answer)) :=
  ⟨by decide, all_success_pool_is_union [[q1], [q2]] (by decide) id 0 stA⟩

/-- Initialization finishes without throwing exactly on the stored values
initThrowFree accepts. -/
theorem domContentLoaded_ok_eq (stored : Option StoredRaw)
    (vals : List String) :
    initOk (domContentLoaded stored vals) = initThrowFree stored vals := by
  cases stored with
  | none =>
    simp [domContentLoaded, jsonParseStored, truthy, lengthIsZero,
      mapIncludes_jarr, initOk, initThrowFree]
  | some raw =>
    cases raw with
    | malformed => rfl
    | wellFormed v =>
      cases v with
      | jnull =>
        simp [domContentLoaded, jsonParseStored, truthy, lengthIsZero,
          mapIncludes_jarr, initOk, initThrowFree]
      | jbool b =>
        cases b with
        | false =>
          simp [domContentLoaded, jsonParseStored, truthy, lengthIsZero,
            mapIncludes_jarr, initOk, initThrowFree]
        | true =>
          cases vals with
          | nil => rfl
          | cons a t =>
            simp [domContentLoaded, jsonParseStored, truthy, lengthIsZero,
              mapIncludes, jsIncludes, initOk, initThrowFree]
      | jnum n =>
        by_cases hn : n = 0
        · subst hn
          simp [domContentLoaded, jsonParseStored, truthy, lengthIsZero,
            mapIncludes_jarr, initOk, initThrowFree]
        · cases vals with
          | nil =>
            simp [domContentLoaded, jsonParseStored, truthy, lengthIsZero,
              mapIncludes, initOk, initThrowFree, hn]
          | cons a t =>
            simp [domContentLoaded, jsonParseStored, truthy, lengthIsZero,
              mapIncludes, jsIncludes, initOk, initThrowFree, hn]
      | jstr s =>
        by_cases hs : s.isEmpty
        · simp [domContentLoaded, jsonParseStored, truthy, lengthIsZero,
            mapIncludes_jarr, initOk, initThrowFree, hs]
        · simp [domContentLoaded, jsonParseStored, truthy, lengthIsZero,
            mapIncludes_jstr, initOk, initThrowFree, hs]
      | jarr xs =>
        by_cases hx : xs.isEmpty
        · simp [domContentLoaded, jsonParseStored, truthy, lengthIsZero,
            mapIncludes_jarr, initOk, initThrowFree, hx]
        · simp [domContentLoaded, jsonParseStored, truthy, lengthIsZero,
            mapIncludes_jarr, initOk, initThrowFree, hx]
      | jobj len =>
        by_cases hlen : len = some 0
        · simp [domContentLoaded, jsonParseStored, truthy, lengthIsZero,
            mapIncludes_jarr, initOk, initThrowFree, hlen]
        · cases vals with
          | nil =>
            simp [domContentLoaded, jsonParseStored, truthy, lengthIsZero,
              mapIncludes, initOk, initThrowFree, hlen]
          | cons a t =>
            simp [domContentLoaded, jsonParseStored, truthy, lengthIsZero,
              mapIncludes, jsIncludes, initOk, initThrowFree, hlen]

/-- C9 amended: every failure of the per-category fetch loop is caught,
and a run whose fetched arrays contain only property-readable elements
throws nothing after initialization; but the claim fails in general:
initialization throws exactly on the stored values outside initThrowFree
(malformed JSON, or a truthy value that is not length-zero and has no
includes method while a checkbox exists), and a fetch run throws an
uncaught TypeError exactly when the element drawn from the shuffled pool
is nullish, as a null entry of a fetched array can be, in the final
displayNextQuestion call that runs outside every try/catch. -/
theorem exception_surface_characterization :
    (∀ (stored : Option StoredRaw) (vals : List String),
      initOk (domContentLoaded stored vals) = initThrowFree stored vals) ∧
    (∀ (responses : List FetchResponseRaw) (f : Nat → Nat) (rnd : Nat),
      fetchOkRaw (fetchQuestionsRaw responses f rnd)
        = !drawnNullish rnd
            (shuffleArray f ((successesOfRaw responses).flatten))) ∧
    (∀ (responses : List FetchResponseRaw) (f : Nat → Nat) (rnd : Nat),
      (successesOfRaw responses).flatten.all isRecordElem = true →
      fetchOkRaw (fetchQuestionsRaw responses f rnd) = true) := by
  refine ⟨domContentLoaded_ok_eq, fetchQuestionsRaw_ok_eq, ?_⟩
  intro responses f rnd hall
  rw [fetchQuestionsRaw_ok_eq]
  unfold drawnNullish
  by_cases h : (shuffleArray f ((successesOfRaw responses).flatten)).length = 0
  · rw [dif_pos h]
    rfl
  · rw [dif_neg h]
    have hmem : (shuffleArray f ((successesOfRaw responses).flatten)).get
        ⟨rnd % (shuffleArray f ((successesOfRaw responses).flatten)).length,
          Nat.mod_lt _ (Nat.pos_of_ne_zero h)⟩
        ∈ (successesOfRaw responses).flatten :=
      (shuffleArray_perm f _).subset (List.get_mem _ _ _)
    have hrec := List.all_eq_true.mp hall _ hmem
    cases hget : (shuffleArray f ((successesOfRaw responses).flatten)).get
        ⟨rnd % (shuffleArray f ((successesOfRaw responses).flatten)).length,
          Nat.mod_lt _ (Nat.pos_of_ne_zero h)⟩ with
    | record q => rfl
    | nullish =>
      rw [hget] at hrec
      exact absurd hrec (by simp [isRecordElem])

/-- C9 counterexample: with a malformed JSON string stored under
selectedCategories, initialization throws an uncaught SyntaxError instead
of every failure path being caught or guarded. -/
theorem init_crash_on_malformed_storage :
    domContentLoaded (some .malformed) ["Cypress"] =
      .error .parseFailureError := rfl

/-- C10: with every checkbox unchecked, saveCategorySelections persists
the empty array rather than the default, and an initialization that later
reads that empty array discards it, applying and persisting exactly the
default selection containing only Cypress. -/
theorem deselect_all_resets_on_restart (checkboxes : List Checkbox)
    (oracle : String → FetchResponse) (f : Nat → Nat) (rnd : Nat)
    (st : PopupState) (vals : List String)
    (h : ∀ cb ∈ checkboxes, cb.checked = false) :
    (saveCategorySelections checkboxes oracle f rnd st).1 = [] ∧
    domContentLoaded (some (.wellFormed (.jarr []))) vals =
      Except.ok ⟨JVal.jarr ["Cypress"], some ["Cypress"],
        vals.map (fun v => List.contains ["Cypress"] v)⟩ := by
  constructor
  · have hfil : checkboxes.filter (fun cb => cb.checked) = [] :=
      List.filter_eq_nil_iff.mpr (fun cb hcb => by simp [h cb hcb])
    simp [saveCategorySelections, selectedCategoriesOf, hfil]
  · simp [domContentLoaded, jsonParseStored, truthy, lengthIsZero,
      mapIncludes_jarr]

/-- Witness for C10 at a concrete input: one unchecked checkbox and one
checkbox value. -/
theorem deselect_all_resets_on_restart_witness :
    (∀ cb ∈ [(⟨"Cypress", false⟩ : Checkbox)], cb.checked = false) ∧
    ((saveCategorySelections [⟨"Cypress", false⟩] oracleFail id 0 stA).1 = [] ∧
     domContentLoaded (some (.wellFormed (.jarr []))) ["Cypress"] =
       Except.ok ⟨JVal.jarr ["Cypress"], some ["Cypress"],
         ["Cypress"].map (fun v => List.contains ["Cypress"] v)⟩) :=
  ⟨by decide,
    deselect_all_resets_on_restart [⟨"Cypress", false⟩] oracleFail id 0 stA
      ["Cypress"] (by decide)⟩

/-- C5: shuffleArray is in-place Fisher-Yates, iterating i from the last
index down to 1 and swapping index i with a drawn index in the range 0..i;
its result is always a permutation of the input, and on a duplicate-free
pool the map from in-range draw sequences to outcomes is injective and
reaches every permutation of the pool, so uniform draws yield every
permutation with equal probability. -/
theorem shuffle_is_unbiased_fisher_yates {α : Type} (l : List α)
    (hnd : l.Nodup) :
    (∀ f : Nat → Nat, (shuffleArray f l).Perm l) ∧
    (∀ f g : Nat → Nat, (∀ i, f i ≤ i) → (∀ i, g i ≤ i) →
      shuffleArray f l = shuffleArray g l →
      ∀ i, 1 ≤ i → i < l.length → f i = g i) ∧
    (∀ l' : List α, l.Perm l' →
      ∃ f : Nat → Nat, (∀ i, f i ≤ i) ∧ shuffleArray f l = l') := by
  refine ⟨fun f => shuffleArray_perm f l, ?_, ?_⟩
  · intro f g hf hg heq i h1 hil
    have hk : l.length - 1 < l.length := by omega
    exact shuffleGo_inj f g hf hg (l.length - 1) l hnd hk heq i h1 (by omega)
  · intro l' hperm
    have hlen : l.length = l'.length := hperm.length_eq
    cases hl : l.length with
    | zero =>
      have hnil : l = [] := List.length_eq_zero.mp hl
      have hnil' : l' = [] := by
        rw [hnil] at hperm
        exact List.nil_perm.mp hperm
      refine ⟨fun _ => 0, fun i => Nat.zero_le i, ?_⟩
      rw [hnil, hnil']
      rfl
    | succ n =>
      have hk : l.length - 1 < l.length := by omega
      have hpre : (l.take (l.length - 1 + 1)).Perm
          (l'.take (l.length - 1 + 1)) := by
        have h1 : l.length - 1 + 1 = l.length := by omega
        rw [h1, List.take_length, hlen, List.take_length]
        exact hperm
      have hhigh : ∀ m, l.length - 1 < m → l[m]? = l'[m]? := by
        intro m hm
        rw [List.getElem?_eq_none (by omega),
          List.getElem?_eq_none (by omega)]
      exact shuffleGo_surj (l.length - 1) l l' hnd hlen hk hpre hhigh

/-- Witness for C5 at a concrete input: the three-element pool 0, 1, 2. -/
theorem shuffle_is_unbiased_fisher_yates_witness :
    ([0, 1, 2] : List Nat).Nodup ∧
    ((∀ f : Nat → Nat, (shuffleArray f [0, 1, 2]).Perm [0, 1, 2]) ∧
     (∀ f g : Nat → Nat, (∀ i, f i ≤ i) → (∀ i, g i ≤ i) →
       shuffleArray f [0, 1, 2] = shuffleArray g [0, 1, 2] →
       ∀ i, 1 ≤ i → i < ([0, 1, 2] : List Nat).length → f i = g i) ∧
     (∀ l' : List Nat, ([0, 1, 2] : List Nat).Perm l' →
       ∃ f : Nat → Nat, (∀ i, f i ≤ i) ∧ shuffleArray f [0, 1, 2] = l')) :=
  ⟨by decide, shuffle_is_unbiased_fisher_yates [0, 1, 2] (by decide)⟩

/-- C8: two consecutive answer toggles restore the exact original state,
and a single toggle changes nothing except the answer text's hidden
state. -/
theorem toggle_answer_involution (st : PopupState) :
    toggleAnswerVisibility (toggleAnswerVisibility st) = st ∧
    (toggleAnswerVisibility st).allQuestions = st.allQuestions ∧
    (toggleAnswerVisibility st).questionText = st.questionText ∧
    (toggleAnswerVisibility st).answerText = st.answerText ∧
    (toggleAnswerVisibility st).showAnswerHidden = st.showAnswerHidden ∧
    (toggleAnswerVisibility st).nextQuestionHidden = st.nextQuestionHidden ∧
    (toggleAnswerVisibility st).spinnerHidden = st.spinnerHidden := by
  refine ⟨?_, rfl, rfl, rfl, rfl, rfl, rfl⟩
  cases st
  simp [toggleAnswerVisibility]

end QAPopup
